import Mathlib

/-!
Verification of the batched telemetry-sink subsystem of the minimal-blog
repository: the `FanOut` dispatcher and `Persister` slog handler from the
`logging` package, and the batching ScyllaDB log `Store` from the
`logrepo` package, shallowly embedded from the Go sources.
-/

/-- slog levels are integers: DEBUG is -4, INFO is 0, WARN is 4, ERROR is 8. -/
abbrev Level := Int

/-- slog attribute values: the kinds this code base exercises, plus the
zero value (an unset `slog.Value`, kind Any holding nil). -/
inductive Value where
  | zero
  | str (s : String)
  | int (i : Int)
  | group (members : List (String × Value))

/-- A slog attribute: a key paired with a value. -/
abbrev Attr := String × Value

/-- Context values that `AttrFromContextExtractFunc` functions may read. -/
abbrev Ctx := List (String × String)

/-- Go `Value.isEmptyGroup`: kind is Group and the member list is empty. -/
def Value.isEmptyGroup : Value → Bool
  | Value.group [] => true
  | _ => false

/-- `attr.Value.Equal(slog.Value\x7b\x7d)` test used by `RemoveEmptyAttrs`:
only the genuine zero value compares equal to the zero value. -/
def Value.isZero : Value → Bool
  | Value.zero => true
  | _ => false

mutual

/-- Rendering of `fmt.Sprintf("%v", value)` on a `slog.Value`, which uses
`Value.String`: strings verbatim, ints in decimal, groups bracketed. -/
def Value.render : Value → String
  | Value.zero => "<nil>"
  | Value.str s => s
  | Value.int i => toString i
  | Value.group ms => "[" ++ renderMembers ms ++ "]"

/-- Space-separated `key=value` rendering of group members. -/
def renderMembers : List (String × Value) → String
  | [] => ""
  | [kv] => kv.1 ++ "=" ++ Value.render kv.2
  | kv :: rest => kv.1 ++ "=" ++ Value.render kv.2 ++ " " ++ renderMembers rest

end

/-- `slog.Record`: timestamp, level, message, caller pc, and the ordered
attribute list accumulated on the record. -/
structure Record where
  time : Nat
  level : Level
  message : String
  pc : Nat
  attrs : List Attr

/-- `slog.Record.AddAttrs`: appends attributes, skipping (only) attributes
whose value is an empty group. -/
def Record.addAttrs (r : Record) (as : List Attr) : Record :=
  { r with attrs := r.attrs ++ as.filter (fun a => !a.2.isEmptyGroup) }

/-- `slog.Record.Clone`: an independent copy of the record carrying the
same timestamp, level, message, pc and attributes. -/
def Record.clone (r : Record) : Record :=
  { time := r.time, level := r.level, message := r.message,
    pc := r.pc, attrs := r.attrs }

/-- slog-common `uniqByLast` step: a later binding for an existing key
overwrites in place, a new key is appended. -/
def uniqStep (result : List Attr) (a : Attr) : List Attr :=
  match result.findIdx? (fun b => b.1 == a.1) with
  | some j => result.set j a
  | none => result ++ [a]

/-- slog-common `UniqAttrs`: deduplicate attributes by key, keeping the
first position and the last value of each key. -/
def uniqAttrs (attrs : List Attr) : List Attr :=
  attrs.foldl uniqStep []

/-- Scan for the first attribute whose key matches `g` and whose value is
a group; return the attributes before it, its members, and the rest. -/
def splitAtGroup (g : String) : List Attr → Option (List Attr × List Attr × List Attr)
  | [] => none
  | (k, v) :: rest =>
    match v with
    | Value.group ms =>
      if k = g then some ([], ms, rest)
      else (splitAtGroup g rest).map (fun t => ((k, v) :: t.1, t.2.1, t.2.2))
    | _ => (splitAtGroup g rest).map (fun t => ((k, v) :: t.1, t.2.1, t.2.2))

/-- slog-common `AppendAttrsToGroup`: append new attributes at the end of
the nesting described by `groups`, rebuilding the group spine in place. -/
def appendAttrsToGroup : List String → List Attr → List Attr → List Attr
  | [], actual, news => uniqAttrs (actual ++ news)
  | g :: gs, actual, news =>
    match splitAtGroup g actual with
    | some (pre, ms, post) =>
      pre ++ [(g, Value.group (appendAttrsToGroup gs ms news))] ++ post
    | none =>
      uniqAttrs (actual ++ [(g, Value.group (appendAttrsToGroup gs [] news))])

/-- Wrap one record attribute in the handler's group prefixes, innermost
group applied first (the Go loop walks the reversed group list). -/
def wrapGroups (groups : List String) (a : Attr) : Attr :=
  groups.reverse.foldl (fun acc g => (g, Value.group [acc])) a

/-- slog-common `AppendRecordAttrsToAttrs`: the handler attributes,
followed by each record attribute wrapped in the group prefixes. -/
def appendRecordAttrsToAttrs (attrs : List Attr) (groups : List String)
    (record : Record) : List Attr :=
  attrs ++ record.attrs.map (wrapGroups groups)

/-- slog-common `RemoveEmptyAttrs`: drop attributes with an empty key,
groups whose members are all dropped, and zero values. -/
def removeEmptyAttrs : List Attr → List Attr
  | [] => []
  | (k, v) :: rest =>
    if k = "" then removeEmptyAttrs rest
    else
      match v with
      | Value.group ms =>
        match removeEmptyAttrs ms with
        | [] => removeEmptyAttrs rest
        | ms2 => (k, Value.group ms2) :: removeEmptyAttrs rest
      | _ =>
        if v.isZero then removeEmptyAttrs rest
        else (k, v) :: removeEmptyAttrs rest

/-- `logging.converter`: aggregate handler and record attributes, remove
empty ones, and build a fresh record carrying time, level, message, pc
and the aggregated attributes. -/
def converter (loggerAttr : List Attr) (groups : List String)
    (record : Record) : Record :=
  let attrs := appendRecordAttrsToAttrs loggerAttr groups record
  let attrs := removeEmptyAttrs attrs
  (Record.mk record.time record.level record.message record.pc []).addAttrs attrs

/-- Go `%+d` rendering: non-negative integers get an explicit plus sign. -/
def plusd (n : Int) : String :=
  if 0 ≤ n then "+" ++ toString n else toString n

/-- `slog.Level.String`: the nearest named level below, with a signed
offset when the level is not exactly a named one. -/
def levelStr (l : Level) : String :=
  let offs := fun (base : String) (val : Int) =>
    if val = 0 then base else base ++ plusd val
  if l < 0 then offs "DEBUG" (l + 4)
  else if l < 4 then offs "INFO" l
  else if l < 8 then offs "WARN" (l - 4)
  else offs "ERROR" (l - 8)

/-- `logging.Persister`: the ScyllaDB-backed slog handler. The `store`
field is the shared `LogStore` reference, modelled as an identifier. -/
structure Persister where
  store : Nat
  logLevel : Level
  attrs : List Attr
  groups : List String
  extractFunc : List (Ctx → List Attr)

/-- `Persister.Enabled`: a level is enabled when it is at least the
handler's configured level. -/
def Persister.enabled (p : Persister) (l : Level) : Bool :=
  p.logLevel ≤ l

/-- `Persister.WithAttrs`: a new Persister with the attributes appended
into the current group scope. The Go struct literal omits `extractFunc`,
so the derived handler's extract-function list is nil. -/
def Persister.withAttrs (p : Persister) (attrs : List Attr) : Persister :=
  { logLevel := p.logLevel
    store := p.store
    attrs := appendAttrsToGroup p.groups p.attrs attrs
    groups := p.groups
    extractFunc := [] }

/-- `Persister.WithGroup`: the empty name returns the receiver unchanged;
otherwise a new Persister with the name appended to the group list. The
Go struct literal omits `extractFunc`, so it is nil on the result. -/
def Persister.withGroup (p : Persister) (name : String) : Persister :=
  if name = "" then p
  else
    { logLevel := p.logLevel
      store := p.store
      attrs := p.attrs
      groups := p.groups ++ [name]
      extractFunc := [] }

/-- The attribute list built by `Persister.Handle` from the handler's
extract functions applied to the context. -/
def Persister.extracted (p : Persister) (ctx : Ctx) : List Attr :=
  p.extractFunc.foldl (fun acc fn => acc ++ fn ctx) []

/-- Assoc-list model of Go map assignment: overwrite in place or append. -/
def mapSet (m : List (String × String)) (k v : String) : List (String × String) :=
  match m.findIdx? (fun kv => kv.1 == k) with
  | some j => m.set j (k, v)
  | none => m ++ [(k, v)]

/-- Lookup in the assoc-list map model. -/
def mapGet (m : List (String × String)) (k : String) : Option String :=
  (m.find? (fun kv => kv.1 == k)).map (fun kv => kv.2)

/-- The fixed insert statement sent by `Persister.Handle`. -/
def insertLogQuery : String :=
  "INSERT INTO logs (timestamp, level, message, attributes) VALUES (?, ?, ?, ?)"

/-- The positional arguments of the `store.Insert` call made by
`Persister.Handle`: the query and the four bound values. -/
structure InsertCall where
  query : String
  time : Nat
  level : String
  message : String
  attrsMap : List (String × String)

/-- Everything `Persister.Handle` computes: the `store.Insert` call it
issues, the converter output record, and its returned error. -/
structure HandleResult where
  call : InsertCall
  output : Record
  err : Option String

/-- `Persister.Handle`: collect context-extracted attributes, run the
converter over handler plus extracted attributes, build the attribute
map by iterating the *raw record's* attributes with `%v` rendering, and
issue the insert; always returns nil. -/
def Persister.handle (p : Persister) (ctx : Ctx) (r : Record) : HandleResult :=
  let attrs := p.extracted ctx
  let output := converter (p.attrs ++ attrs) p.groups r
  let recordAttrs := r.attrs.foldl (fun m a => mapSet m a.1 (Value.render a.2)) []
  { call := { query := insertLogQuery
              time := output.time
              level := levelStr output.level
              message := output.message
              attrsMap := recordAttrs }
    output := output
    err := none }

/-- A value a Go child handler can panic with: either an error value or
some other value rendered by `%+v`. -/
inductive FaultVal where
  | errVal (msg : String)
  | other (s : String)

/-- Result of invoking one child's `Handle`: a normal return carrying an
optional error, or an unrecovered runtime fault. -/
inductive Outcome where
  | ret (e : Option String)
  | fault (v : FaultVal)

/-- `logging.try`: run the callback, recovering a fault into an error
value; a non-error fault is wrapped in an `unexpected error` message. -/
def tryCall : Outcome → Option String
  | Outcome.ret e => e
  | Outcome.fault (FaultVal.errVal e) => some e
  | Outcome.fault (FaultVal.other s) => some ("unexpected error: " ++ s)

/-- A child sink of the fan-out: either the repository's `Persister`, or
an external `slog.Handler` (console writer and the like), modelled by its
enabledness test and the outcome of its handle call. -/
inductive SHandler where
  | persister (p : Persister)
  | external (enabledF : Level → Bool) (handleF : Ctx → Record → Outcome)

/-- Per-child enabledness, per each child's `Enabled` implementation. -/
def SHandler.enabled : SHandler → Level → Bool
  | SHandler.persister p, l => p.enabled l
  | SHandler.external e _, l => e l

/-- Per-child handle call outcome. `Persister.Handle` always returns nil
and never faults. -/
def SHandler.handleOutcome : SHandler → Ctx → Record → Outcome
  | SHandler.persister _, _, _ => Outcome.ret none
  | SHandler.external _ h, ctx, r => h ctx r

/-- A child's own `WithAttrs` derivation; external handlers are opaque
and modelled as unchanged by derivation. -/
def SHandler.withAttrs : SHandler → List Attr → SHandler
  | SHandler.persister p, attrs => SHandler.persister (p.withAttrs attrs)
  | SHandler.external e h, _ => SHandler.external e h

/-- A child's own `WithGroup` derivation; external handlers are opaque
and modelled as unchanged by derivation. -/
def SHandler.withGroup : SHandler → String → SHandler
  | SHandler.persister p, g => SHandler.persister (p.withGroup g)
  | SHandler.external e h, _ => SHandler.external e h

/-- `logging.FanOut`: the ordered list of registered child handlers. -/
structure FanOut where
  handlers : List SHandler

/-- `FanOut.Enabled`: true when any child reports enabled. -/
def FanOut.enabled (f : FanOut) (l : Level) : Bool :=
  f.handlers.any (fun h => h.enabled l)

/-- One iteration of the `FanOut.Handle` child loop: if the child is
enabled for the record's level, deliver a clone of the record through
`try` and accumulate a non-nil error; otherwise skip the child. The
first accumulator component records the (index, record) deliveries. -/
def fanOutStep (ctx : Ctx) (r : Record)
    (acc : List (Nat × Record) × List String) (ih : Nat × SHandler) :
    List (Nat × Record) × List String :=
  if ih.2.enabled r.level then
    (acc.1 ++ [(ih.1, r.clone)],
     acc.2 ++ (tryCall (ih.2.handleOutcome ctx r.clone)).toList)
  else acc

/-- `FanOut.Handle`: iterate children in registration order, then
`errors.Join` the accumulated errors: nil when none accumulated. The
result pairs the attempted deliveries with the joined error. -/
def FanOut.handle (f : FanOut) (ctx : Ctx) (r : Record) :
    List (Nat × Record) × Option (List String) :=
  let acc := f.handlers.enum.foldl (fanOutStep ctx r) ([], [])
  (acc.1, if acc.2.isEmpty then none else some acc.2)

/-- `FanOut.WithAttrs` as written in the Go source: the loop computes
each child's derivation into the loop-local variable and discards it,
then returns the receiver itself. -/
def FanOut.withAttrs (f : FanOut) (attrs : List Attr) : FanOut :=
  let _ := f.handlers.map (fun h => h.withAttrs attrs)
  f

/-- `FanOut.WithGroup` as written in the Go source: empty name returns
the receiver; otherwise the loop computes each child's derivation into
the loop-local variable and discards it, then returns the receiver. -/
def FanOut.withGroup (f : FanOut) (name : String) : FanOut :=
  if name = "" then f
  else
    let _ := f.handlers.map (fun h => h.withGroup name)
    f

/-- One pending batch entry: the parametrized query and its values, as
accumulated by `Store.Insert`. -/
structure Entry where
  query : String
  values : List String
deriving DecidableEq

/-- Observable state of the `logrepo.Store`: the pending batch, the log
of batches passed to `session.ExecuteBatch`, the configured size
threshold, the number of sends on the flush channel, and whether the
session has been closed. -/
structure Store where
  batch : List Entry
  executed : List (List Entry)
  batchSize : Int
  signals : Nat
  closed : Bool
deriving DecidableEq

/-- `NewStore` yields an empty batch and no flushes. -/
def Store.new (bs : Int) : Store :=
  { batch := [], executed := [], batchSize := bs, signals := 0, closed := false }

/-- `Store.Insert`: append the entry to the batch under the lock; when
the entry count has reached the threshold, signal the flush channel. -/
def Store.insert (c : Store) (e : Entry) : Store :=
  let batch := c.batch ++ [e]
  { c with
    batch := batch
    signals := if (batch.length : Int) ≥ c.batchSize then c.signals + 1 else c.signals }

/-- `Store.flushBatch`: an empty batch returns immediately; otherwise the
whole batch is passed to `session.ExecuteBatch` (success or failure `ok`
is only logged) and the batch is unconditionally replaced by a fresh
empty one. -/
def Store.flushBatch (c : Store) (ok : Bool) : Store :=
  if c.batch = [] then c
  else
    let _ := ok
    { c with batch := [], executed := c.executed ++ [c.batch] }

/-- `Store.Close`: one final flush, then the session is closed. -/
def Store.close (c : Store) (ok : Bool) : Store :=
  let c := c.flushBatch ok
  { c with closed := true }

/-- An event in a store history: a caller's `Insert`, or the background
worker flushing (on a timer tick or a received size signal), with the
execute call's success or failure. -/
inductive StoreEvent where
  | insert (e : Entry)
  | flush (ok : Bool)
deriving DecidableEq

/-- Apply one event to the store state. -/
def Store.step (c : Store) (ev : StoreEvent) : Store :=
  match ev with
  | StoreEvent.insert e => c.insert e
  | StoreEvent.flush ok => c.flushBatch ok

/-- Run a history of events from a given state. -/
def Store.run (c : Store) (evs : List StoreEvent) : Store :=
  evs.foldl Store.step c

/-- The entries inserted over a history, in order. -/
def insertedEntries (evs : List StoreEvent) : List Entry :=
  evs.filterMap (fun ev =>
    match ev with
    | StoreEvent.insert e => some e
    | StoreEvent.flush _ => none)

/-- The testable-property scenario: a fresh store with threshold `bs`,
a sequence of inserts with no intervening worker flush, then `Close`. -/
def closeScenario (bs : Int) (es : List Entry) : Store :=
  (Store.run (Store.new bs) (es.map StoreEvent.insert)).close true

/-- Threads of the interleaving model of `Insert` versus the background
worker: the worker goroutine and two concurrent inserters. -/
inductive Tid where
  | worker
  | insA
  | insB
deriving DecidableEq

/-- Program counter of one `Insert` call: before `mu.Lock`, holding the
lock before the append, blocked on the flush-channel send, about to
release the lock, and returned. -/
inductive InsPC where
  | start
  | locked
  | sending
  | unlockReady
  | done
deriving DecidableEq

/-- Program counter of the background worker loop: blocked in `select`,
inside `flushBatch` waiting on `mu.Lock`, and holding the lock flushing. -/
inductive WPC where
  | atSelect
  | wantLock
  | flushing
deriving DecidableEq

/-- Global state of the interleaving model: the mutex holder, both
inserters' and the worker's program counters, the batch length, and the
configured batch-size threshold. -/
structure Sys where
  mu : Option Tid
  a : InsPC
  b : InsPC
  w : WPC
  batchLen : Nat
  batchSize : Nat
deriving DecidableEq

/-- Successor states contributed by inserter A. The append moves to the
channel send exactly when the batch has reached the threshold; the send
is an unbuffered rendezvous, enabled only while the worker sits in
`select`. -/
def stepsA (s : Sys) : List Sys :=
  match s.a with
  | InsPC.start =>
    if s.mu = none then [{ s with mu := some Tid.insA, a := InsPC.locked }] else []
  | InsPC.locked =>
    let pc := if s.batchLen + 1 ≥ s.batchSize then InsPC.sending else InsPC.unlockReady
    [{ s with batchLen := s.batchLen + 1, a := pc }]
  | InsPC.sending =>
    if s.w = WPC.atSelect then
      [{ s with a := InsPC.unlockReady, w := WPC.wantLock }]
    else []
  | InsPC.unlockReady => [{ s with mu := none, a := InsPC.done }]
  | InsPC.done => []

/-- Successor states contributed by inserter B, symmetric to A. -/
def stepsB (s : Sys) : List Sys :=
  match s.b with
  | InsPC.start =>
    if s.mu = none then [{ s with mu := some Tid.insB, b := InsPC.locked }] else []
  | InsPC.locked =>
    let pc := if s.batchLen + 1 ≥ s.batchSize then InsPC.sending else InsPC.unlockReady
    [{ s with batchLen := s.batchLen + 1, b := pc }]
  | InsPC.sending =>
    if s.w = WPC.atSelect then
      [{ s with b := InsPC.unlockReady, w := WPC.wantLock }]
    else []
  | InsPC.unlockReady => [{ s with mu := none, b := InsPC.done }]
  | InsPC.done => []

/-- Successor states contributed by the worker: at `select` a timer tick
(or a rendezvous, handled on the sender's side) moves it into
`flushBatch`, which first acquires the mutex, then executes and clears
the batch and releases the mutex. -/
def stepsW (s : Sys) : List Sys :=
  match s.w with
  | WPC.atSelect => [{ s with w := WPC.wantLock }]
  | WPC.wantLock =>
    if s.mu = none then [{ s with mu := some Tid.worker, w := WPC.flushing }] else []
  | WPC.flushing => [{ s with batchLen := 0, mu := none, w := WPC.atSelect }]

/-- All successor states under the interleaving semantics. -/
def nexts (s : Sys) : List Sys :=
  stepsA s ++ stepsB s ++ stepsW s

/-- Reachability in the interleaving model. -/
inductive Reach : Sys → Sys → Prop where
  | refl (s : Sys) : Reach s s
  | step {s t u : Sys} : Reach s t → u ∈ nexts t → Reach s u

/-- Initial state: mutex free, both inserts pending, worker in `select`,
empty batch, threshold 1 (any append reaches the threshold). -/
def initSys : Sys :=
  { mu := none, a := InsPC.start, b := InsPC.start, w := WPC.atSelect,
    batchLen := 0, batchSize := 1 }

/-- The stuck state: B holds the mutex and is blocked sending on the
unbuffered flush channel, while the worker — woken by A's earlier
signal — is blocked acquiring the mutex inside `flushBatch`. -/
def deadSys : Sys :=
  { mu := some Tid.insB, a := InsPC.done, b := InsPC.sending, w := WPC.wantLock,
    batchLen := 2, batchSize := 1 }

/-- Intermediate states of the deadlocking interleaving: A has acquired
the mutex. -/
def deadStep1 : Sys := { initSys with mu := some Tid.insA, a := InsPC.locked }

/-- A appended its entry, reaching the threshold, and moves to the send. -/
def deadStep2 : Sys := { deadStep1 with batchLen := 1, a := InsPC.sending }

/-- A's send rendezvoused with the worker's select; the worker heads into
`flushBatch` towards the mutex. -/
def deadStep3 : Sys := { deadStep2 with a := InsPC.unlockReady, w := WPC.wantLock }

/-- A released the mutex and returned. -/
def deadStep4 : Sys := { deadStep3 with mu := none, a := InsPC.done }

/-- B acquired the mutex before the worker could. -/
def deadStep5 : Sys := { deadStep4 with mu := some Tid.insB, b := InsPC.locked }

/-- A demonstration Persister: store id 0, level DEBUG, no accumulated
attributes, groups or extract functions. -/
def pDemo : Persister :=
  { store := 0, logLevel := -4, attrs := [], groups := [], extractFunc := [] }

/-- The attribute added in the testable-property scenario. -/
def xAttr : Attr := ("x", Value.str "1")

/-- A demonstration record at level INFO carrying one attribute. -/
def rDemo : Record :=
  { time := 5, level := 0, message := "m", pc := 0, attrs := [("y", Value.str "2")] }

/-- A record carrying an empty-key attribute next to a normal one. -/
def rEmptyKey : Record :=
  { time := 1, level := 0, message := "m", pc := 0,
    attrs := [("", Value.str "v"), ("k", Value.str "w")] }

/-- A context extract function contributing one attribute. -/
def ctxAttrFn : Ctx → List Attr := fun _ => [("c", Value.str "7")]

/-- A Persister configured with a non-empty extract-function list. -/
def pExtract : Persister :=
  { store := 0, logLevel := -4, attrs := [], groups := [], extractFunc := [ctxAttrFn] }

/-- A fan-out over an always-failing external child and a Persister. -/
def fanDemo2 : FanOut :=
  { handlers := [SHandler.external (fun _ => true) (fun _ _ => Outcome.ret (some "boom")),
                 SHandler.persister pDemo] }

/-- Demonstration batch entries. -/
def entryA : Entry := { query := "q", values := ["a"] }

/-- A second demonstration batch entry. -/
def entryB : Entry := { query := "q", values := ["b"] }

/-- A store with the default threshold and an empty batch. -/
def storeEmptyDemo : Store := Store.new 5

/-- A store with the default threshold and one pending entry. -/
def storeOneDemo : Store := { Store.new 5 with batch := [entryA] }

/-- Unfolding of the fan-out child loop: the deliveries are the enabled
children in registration order, each receiving a clone of the record,
and the accumulated errors are the non-nil results of `try` on the
enabled children, in the same order. -/
theorem fanOut_foldl_spec (ctx : Ctx) (r : Record) (l : List (Nat × SHandler))
    (d : List (Nat × Record)) (e : List String) :
    l.foldl (fanOutStep ctx r) (d, e)
      = (d ++ (l.filter (fun ih => ih.2.enabled r.level)).map (fun ih => (ih.1, r.clone)),
         e ++ (l.filter (fun ih => ih.2.enabled r.level)).filterMap
               (fun ih => tryCall (ih.2.handleOutcome ctx r.clone))) := by
  induction l generalizing d e with
  | nil => simp
  | cons hd tl ih =>
    by_cases h : hd.2.enabled r.level = true
    · rw [List.foldl_cons,
        show fanOutStep ctx r (d, e) hd
          = (d ++ [(hd.1, r.clone)],
             e ++ (tryCall (hd.2.handleOutcome ctx r.clone)).toList) from by
          simp [fanOutStep, h],
        ih]
      rcases hc : tryCall (hd.2.handleOutcome ctx r.clone) with _ | v <;>
        simp [List.filter_cons, h, List.filterMap_cons, hc]
    · rw [List.foldl_cons,
        show fanOutStep ctx r (d, e) hd = (d, e) from by simp [fanOutStep, h], ih]
      simp [List.filter_cons, h]

/-- C2: `FanOut.Handle` attempts delivery to exactly the children whose
`Enabled(record.level)` is true, in registration order, passing each a
clone of the record; each child's error or recovered fault is collected
without aborting later deliveries; the result is the join of the
collected errors, and it is nil exactly when no enabled child failed. -/
theorem fanout_handle_spec (f : FanOut) (ctx : Ctx) (r : Record) :
    (f.handle ctx r).1
      = (f.handlers.enum.filter (fun ih => ih.2.enabled r.level)).map
          (fun ih => (ih.1, r.clone))
    ∧ (f.handle ctx r).2
      = (let errs := (f.handlers.enum.filter (fun ih => ih.2.enabled r.level)).filterMap
             (fun ih => tryCall (ih.2.handleOutcome ctx r.clone))
         if errs.isEmpty then none else some errs)
    ∧ ((f.handle ctx r).2 = none
        ↔ ∀ ih ∈ f.handlers.enum, ih.2.enabled r.level = true →
            tryCall (ih.2.handleOutcome ctx r.clone) = none) := by
  have hf := fanOut_foldl_spec ctx r f.handlers.enum [] []
  refine ⟨?_, ?_, ?_⟩
  · simp [FanOut.handle, hf]
  · show (if (f.handlers.enum.foldl (fanOutStep ctx r) ([], [])).2.isEmpty then none
        else some (f.handlers.enum.foldl (fanOutStep ctx r) ([], [])).2) = _
    rw [hf]
    simp
  · simp only [FanOut.handle, hf, List.nil_append]
    constructor
    · intro hnone ih hmem hen
      by_cases hemp : ((f.handlers.enum.filter (fun ih => ih.2.enabled r.level)).filterMap
          (fun ih => tryCall (ih.2.handleOutcome ctx r.clone))).isEmpty = true
      · rw [List.isEmpty_iff, List.filterMap_eq_nil_iff] at hemp
        exact hemp ih (List.mem_filter.mpr ⟨hmem, hen⟩)
      · simp [hemp] at hnone
    · intro hall
      have hemp : ((f.handlers.enum.filter (fun ih => ih.2.enabled r.level)).filterMap
          (fun ih => tryCall (ih.2.handleOutcome ctx r.clone))) = [] := by
        rw [List.filterMap_eq_nil_iff]
        intro ih hmem
        rcases List.mem_filter.mp hmem with ⟨hm, he⟩
        exact hall ih hm he
      simp [hemp]

/-- Witness for the fan-out claim: with an always-failing first child and
a Persister second child, both are attempted in order and the joined
error carries the failure. -/
theorem fanout_handle_spec_witness :
    (fanDemo2.handle [] rDemo).1 = [(0, rDemo.clone), (1, rDemo.clone)]
    ∧ (fanDemo2.handle [] rDemo).2 = some ["boom"] := by
  have h := fanout_handle_spec fanDemo2 [] rDemo
  refine ⟨?_, ?_⟩
  · rw [h.1]; rfl
  · rw [h.2.1]; rfl

/-- C9: `Persister.Handle` always returns nil, whatever the durable
store does with the insert. -/
theorem persister_handle_returns_nil (p : Persister) (ctx : Ctx) (r : Record) :
    (p.handle ctx r).err = none := rfl

/-- C3 divergence: attributes accumulated through `WithAttrs` do reach
the derived Persister's state, but the flushed row's attribute map is
built from the raw record only, so it omits the accumulated `x` while
carrying the record's own `y`; the original Persister likewise flushes
no `x`. -/
theorem persister_attrs_missing_from_flushed_row :
    (pDemo.withAttrs [xAttr]).attrs = [xAttr]
    ∧ mapGet ((pDemo.withAttrs [xAttr]).handle [] rDemo).call.attrsMap "x" = none
    ∧ mapGet ((pDemo.withAttrs [xAttr]).handle [] rDemo).call.attrsMap "y" = some "2"
    ∧ mapGet ((pDemo.handle [] rDemo).call.attrsMap) "x" = none := by
  exact ⟨rfl, rfl, rfl, rfl⟩

/-- C8 divergence: the converter does drop the empty-key attribute before
flattening, but the flushed attribute map is built from the raw record,
so the empty-key attribute is present in the flushed row. -/
theorem empty_attr_present_in_flushed_row :
    (converter pDemo.attrs pDemo.groups rEmptyKey).attrs = [("k", Value.str "w")]
    ∧ mapGet ((pDemo.handle [] rEmptyKey).call.attrsMap) "" = some "v" := by
  constructor
  · simp [converter, appendRecordAttrsToAttrs, wrapGroups, removeEmptyAttrs,
      Record.addAttrs, rEmptyKey, pDemo, Value.isZero, Value.isEmptyGroup]
  · rfl

/-- C4 divergence: `FanOut.WithAttrs` and `FanOut.WithGroup` return the
original fan-out with its original children, even though each child's
own derivation would differ from the original child. -/
theorem fanout_withattrs_discards_derived_children :
    (FanOut.withAttrs ⟨[SHandler.persister pDemo]⟩ [xAttr]).handlers
        = [SHandler.persister pDemo]
    ∧ (FanOut.withGroup ⟨[SHandler.persister pDemo]⟩ "g").handlers
        = [SHandler.persister pDemo]
    ∧ SHandler.persister (pDemo.withAttrs [xAttr]) ≠ SHandler.persister pDemo
    ∧ SHandler.persister (pDemo.withGroup "g") ≠ SHandler.persister pDemo := by
  refine ⟨rfl, rfl, ?_, ?_⟩
  · intro h
    injection h with hp
    have hlen : (pDemo.withAttrs [xAttr]).attrs.length = pDemo.attrs.length :=
      congrArg (fun q => q.attrs.length) hp
    rw [show (pDemo.withAttrs [xAttr]).attrs.length = 1 from rfl] at hlen
    exact absurd hlen (by decide)
  · intro h
    injection h with hp
    have hlen : (pDemo.withGroup "g").groups.length = pDemo.groups.length :=
      congrArg (fun q => q.groups.length) hp
    rw [show (pDemo.withGroup "g").groups.length = 1 from rfl] at hlen
    exact absurd hlen (by decide)

/-- C10: deriving a Persister through `WithAttrs`, or through `WithGroup`
with a non-empty name, leaves the extract-function list empty, so the
derived handler's `Handle` aggregates no context-extracted attributes
into its converter output, while the original handler's `Handle` still
aggregates all of them. -/
theorem persister_derivation_drops_extract (p : Persister) (as : List Attr)
    (g : String) (ctx : Ctx) (r : Record)
    (_hne : p.extractFunc ≠ []) (hg : g ≠ "") :
    (p.withAttrs as).extractFunc = []
    ∧ (p.withGroup g).extractFunc = []
    ∧ Persister.extracted (p.withAttrs as) ctx = []
    ∧ Persister.extracted (p.withGroup g) ctx = []
    ∧ ((p.withAttrs as).handle ctx r).output
        = converter (p.withAttrs as).attrs (p.withAttrs as).groups r
    ∧ ((p.withGroup g).handle ctx r).output
        = converter (p.withGroup g).attrs (p.withGroup g).groups r
    ∧ (p.handle ctx r).output
        = converter (p.attrs ++ p.extracted ctx) p.groups r := by
  refine ⟨rfl, ?_, rfl, ?_, ?_, ?_, rfl⟩
  · simp [Persister.withGroup, hg]
  · simp [Persister.withGroup, hg, Persister.extracted]
  · simp [Persister.handle, Persister.extracted, Persister.withAttrs]
  · simp [Persister.handle, Persister.extracted, Persister.withGroup, hg]

/-- Witness for the derivation claim at a Persister with one extract
function and the group name `g`. -/
theorem persister_derivation_drops_extract_witness :
    pExtract.extractFunc ≠ [] ∧ "g" ≠ ""
    ∧ (pExtract.withAttrs [xAttr]).extractFunc = []
    ∧ (pExtract.withGroup "g").extractFunc = [] := by
  have h := persister_derivation_drops_extract pExtract [xAttr] "g" [] rDemo
      (by simp [pExtract]) (by decide)
  exact ⟨by simp [pExtract], by decide, h.1, h.2.1⟩

/-- Invariant of store histories: the executed batches followed by the
pending batch are exactly the prior contents plus the inserted entries. -/
theorem store_run_invariant (evs : List StoreEvent) (c : Store) :
    (Store.run c evs).executed.flatten ++ (Store.run c evs).batch
      = c.executed.flatten ++ c.batch ++ insertedEntries evs := by
  induction evs generalizing c with
  | nil => simp [Store.run, insertedEntries]
  | cons ev tl ih =>
    cases ev with
    | insert e =>
      have h := ih (c.insert e)
      simp only [Store.run, List.foldl_cons] at h ⊢
      rw [show Store.step c (StoreEvent.insert e) = c.insert e from rfl, h]
      simp [Store.insert, insertedEntries, List.filterMap_cons]
    | flush ok =>
      have h := ih (c.flushBatch ok)
      simp only [Store.run, List.foldl_cons] at h ⊢
      rw [show Store.step c (StoreEvent.flush ok) = c.flushBatch ok from rfl, h]
      by_cases hb : c.batch = []
      · simp [Store.flushBatch, hb, insertedEntries, List.filterMap_cons]
      · simp [Store.flushBatch, hb, insertedEntries, List.filterMap_cons,
          List.flatten_append]

/-- C1: over any finite history of inserts and worker flushes followed by
`Close`, the batches passed to the durable execute call concatenate to
exactly the inserted entries, in order — none lost, none duplicated. -/
theorem batchstore_entries_conserved (bs : Int) (ok : Bool) (evs : List StoreEvent) :
    ((Store.run (Store.new bs) evs).close ok).executed.flatten = insertedEntries evs := by
  have h := store_run_invariant evs (Store.new bs)
  rw [show (Store.new bs).executed.flatten ++ (Store.new bs).batch = [] from rfl,
    List.nil_append] at h
  by_cases hb : (Store.run (Store.new bs) evs).batch = []
  · rw [hb, List.append_nil] at h
    rw [show ((Store.run (Store.new bs) evs).close ok).executed
        = (Store.run (Store.new bs) evs).executed from by
      simp [Store.close, Store.flushBatch, hb]]
    exact h
  · rw [show ((Store.run (Store.new bs) evs).close ok).executed
        = (Store.run (Store.new bs) evs).executed
            ++ [(Store.run (Store.new bs) evs).batch] from by
      simp [Store.close, Store.flushBatch, hb]]
    rw [List.flatten_append]
    simpa using h

/-- C5: `flushBatch` on an empty batch is a no-op that issues no execute
call; on a non-empty batch it passes the entire batch to the execute
call as one unit and clears the batch, whether or not the execute
succeeded, leaving every other field unchanged. -/
theorem flushBatch_spec (c : Store) (ok : Bool) :
    (c.batch = [] → c.flushBatch ok = c)
    ∧ (c.batch ≠ [] →
        (c.flushBatch ok).batch = []
        ∧ (c.flushBatch ok).executed = c.executed ++ [c.batch]
        ∧ (c.flushBatch ok).batchSize = c.batchSize
        ∧ (c.flushBatch ok).signals = c.signals
        ∧ (c.flushBatch ok).closed = c.closed) := by
  constructor
  · intro h; simp [Store.flushBatch, h]
  · intro h; simp [Store.flushBatch, h]

/-- Witness for the flush claim: a no-op flush on an empty store, and a
single-entry flush executing exactly that batch. -/
theorem flushBatch_spec_witness :
    (storeEmptyDemo.flushBatch true = storeEmptyDemo)
    ∧ (storeOneDemo.flushBatch false).batch = []
    ∧ (storeOneDemo.flushBatch false).executed = [[entryA]] := by
  refine ⟨(flushBatch_spec storeEmptyDemo true).1 rfl, ?_, ?_⟩
  · exact ((flushBatch_spec storeOneDemo false).2 (by decide)).1
  · exact ((flushBatch_spec storeOneDemo false).2 (by decide)).2.1

/-- Inserting strictly below the threshold only grows the batch: no
signal is sent and nothing is executed. -/
theorem run_inserts_below_threshold (es : List Entry) (c : Store)
    (h : (c.batch.length : Int) + es.length < c.batchSize) :
    Store.run c (es.map StoreEvent.insert) = { c with batch := c.batch ++ es } := by
  induction es generalizing c with
  | nil => simp [Store.run]
  | cons e tl ih =>
    simp only [List.length_cons] at h
    push_cast at h
    have hlt : ¬ (((c.batch ++ [e]).length : Int) ≥ c.batchSize) := by
      simp only [List.length_append, List.length_singleton]
      push_cast
      omega
    have hstep : c.insert e = { c with batch := c.batch ++ [e] } := by
      simp only [Store.insert]
      rw [if_neg hlt]
    have hrec := ih { c with batch := c.batch ++ [e] } (by
      simp only [List.length_append, List.length_singleton]
      push_cast
      omega)
    simp only [List.map_cons, Store.run, List.foldl_cons] at hrec ⊢
    rw [show Store.step c (StoreEvent.insert e) = c.insert e from rfl, hstep, hrec]
    simp

/-- C7 counterexample: with `batchSize = 1`, inserting `batchSize - 1`
entries (none) and closing issues zero execute calls, not one. -/
theorem close_zero_flush_counterexample :
    ((0 : Int) = 1 - 1) ∧ (closeScenario 1 []).executed = []
    ∧ ([] : List (List Entry)) ≠ [[]] := by
  exact ⟨by decide, by decide, by decide⟩

/-- C7 (amended to a non-empty insert sequence, `batchSize ≥ 2`): a fresh
store given `batchSize - 1 ≥ 1` inserts never signals the flush channel,
and `Close` then issues exactly one execute call carrying exactly those
entries. -/
theorem close_performs_final_flush (bs : Int) (es : List Entry)
    (hlen : (es.length : Int) = bs - 1) (hne : es ≠ []) :
    (closeScenario bs es).executed = [es] ∧ (closeScenario bs es).signals = 0 := by
  have hrun := run_inserts_below_threshold es (Store.new bs) (by
    rw [show (Store.new bs).batch = [] from rfl,
      show (Store.new bs).batchSize = bs from rfl]
    simp only [List.length_nil, Nat.cast_zero, zero_add]
    omega)
  unfold closeScenario
  rw [hrun,
    show ({ Store.new bs with batch := (Store.new bs).batch ++ es } : Store)
      = { batch := es, executed := [], batchSize := bs, signals := 0,
          closed := false } from by simp [Store.new]]
  simp [Store.close, Store.flushBatch, hne]

/-- Witness for the amended close claim at `batchSize = 3` with two
entries. -/
theorem close_performs_final_flush_witness :
    ((2 : Int) = 3 - 1) ∧ ([entryA, entryB] ≠ ([] : List Entry))
    ∧ (closeScenario 3 [entryA, entryB]).executed = [[entryA, entryB]]
    ∧ (closeScenario 3 [entryA, entryB]).signals = 0 := by
  have h := close_performs_final_flush 3 [entryA, entryB] (by decide) (by decide)
  exact ⟨by decide, by decide, h.1, h.2⟩

/-- C6 divergence: a reachable interleaving of two concurrent inserts
and the background worker in which every thread is blocked — inserter B
holds the mutex and is blocked forever on the unbuffered flush-channel
send, while the worker is blocked on the mutex inside `flushBatch`. -/
theorem insert_signal_deadlock :
    Reach initSys deadSys ∧ nexts deadSys = []
    ∧ deadSys.b = InsPC.sending ∧ deadSys.mu = some Tid.insB := by
  refine ⟨?_, by decide, rfl, rfl⟩
  have h1 : Reach initSys deadStep1 := Reach.step (Reach.refl initSys) (by decide)
  have h2 : Reach initSys deadStep2 := Reach.step h1 (by decide)
  have h3 : Reach initSys deadStep3 := Reach.step h2 (by decide)
  have h4 : Reach initSys deadStep4 := Reach.step h3 (by decide)
  have h5 : Reach initSys deadStep5 := Reach.step h4 (by decide)
  exact Reach.step h5 (by decide)
